import Mathlib

/-!
Verification development for the essay-correction backend
(`src/services/essay.service.js`).

The JavaScript service is shallowly embedded: JS values are the inductive
`JSValue`, JS strings are `List Char`, the Prisma-backed store is the explicit
record `DB`, and each service function becomes a pure Lean function over those
types.  `JSON.parse` (a JS builtin) is modelled by the executable `jsonParse`
below; it covers the JSON fragment the service exchanges (objects, arrays,
strings with the usual escapes, integer numerals, literals).  Numeric
arithmetic performed by the service (`+`, `Math.round`, `Math.max`, `>=`)
is modelled over `Int`; the grade payloads the service handles carry JSON
integers, and JS string/boolean coercion inside arithmetic is outside the
model (`numOf` documents the convention).
-/

namespace Enem

/-- A JavaScript runtime value, as far as the essay service observes it:
`null`, `undefined`, booleans, (integer) numbers, strings, arrays and plain
objects with ordered fields. -/
inductive JSValue where
  | vNull
  | vUndefined
  | vBool (b : Bool)
  | vNum (n : Int)
  | vStr (s : List Char)
  | vArr (elems : List JSValue)
  | vObj (fields : List (List Char × JSValue))

/-- JS truthiness: `null`, `undefined`, `false`, `0` and `""` are falsy
(`NaN` is not representable in the model).  Objects and arrays are always
truthy. -/
def isFalsy : JSValue → Bool
  | .vNull => true
  | .vUndefined => true
  | .vBool b => !b
  | .vNum n => n == 0
  | .vStr s => s.isEmpty
  | .vArr _ => false
  | .vObj _ => false

/-- `v == null` under JS loose equality: true exactly for `null` and
`undefined`.  This is the test the service uses in its `.filter` and
`if (x != null)` guards. -/
def isNullish : JSValue → Bool
  | .vNull => true
  | .vUndefined => true
  | _ => false

/-- Property access `v[k]` as the service performs it (always behind a
truthiness guard or optional chaining `?.`): a present field of an object is
returned, anything else yields `undefined`.  Optional chaining on
`null`/`undefined` also yields `undefined`, which this function matches. -/
def getField (v : JSValue) (k : List Char) : JSValue :=
  match v with
  | .vObj fields =>
      match fields.find? (fun p => p.1 == k) with
      | some p => p.2
      | none => .vUndefined
  | _ => .vUndefined

/-- `Object.keys` for the values the aggregation loop feeds it (objects;
non-objects contribute no keys). -/
def keysOf : JSValue → List (List Char)
  | .vObj fields => fields.map (fun p => p.1)
  | _ => []

/-- The numeric reading of a value used to model the service's arithmetic.
All grade payloads the claims concern carry JSON integers; the JS coercions
for non-numbers are outside the model and read as `0` here. -/
def numOf : JSValue → Int
  | .vNum n => n
  | _ => 0

/-! ## Character-level string operations (JS `trim`, `startsWith`, …) -/

/-- The whitespace characters relevant to `String.prototype.trim` and to
strict JSON (space, tab, newline, carriage return). -/
def isWsChar (c : Char) : Bool :=
  c == ' ' || c == '\t' || c == '\n' || c == '\r'

/-- Drop leading whitespace. -/
def trimLeft (l : List Char) : List Char :=
  l.dropWhile isWsChar

/-- Drop trailing whitespace. -/
def trimRight (l : List Char) : List Char :=
  (trimLeft l.reverse).reverse

/-- JS `String.prototype.trim`: drop whitespace from both ends. -/
def trimList (l : List Char) : List Char :=
  trimRight (trimLeft l)

/-- JS `String.prototype.startsWith`: `startsWithL s p` holds when `p` is a
prefix of `s`. -/
def startsWithL : List Char → List Char → Bool
  | _, [] => true
  | [], _ :: _ => false
  | c :: cs, p :: ps => c == p && startsWithL cs ps

/-- JS `String.prototype.endsWith`: `endsWithL s p` holds when `p` is a
suffix of `s`. -/
def endsWithL (s p : List Char) : Bool :=
  startsWithL s.reverse p.reverse

/-- JS `s.substring(0, s.length - n)`: drop the last `n` characters. -/
def dropRightL (n : Nat) (l : List Char) : List Char :=
  l.take (l.length - n)

/-- The leading markdown fence the service strips: the literal characters
of `"` followed by three backticks and `json"`. -/
def jsonFence : List Char := ['\x60', '\x60', '\x60', 'j', 's', 'o', 'n']

/-- Three backticks, the trailing fence the service strips. -/
def tick3 : List Char := ['\x60', '\x60', '\x60']

/-! ## A model of `JSON.parse`

Fuel-based recursive-descent parser over `List Char`.  It accepts the
JSON fragment the service exchanges: `null`/`true`/`false`, integer
numerals, strings with the standard escapes (including `\uXXXX`), arrays
and objects (a repeated object key keeps the last value, as in JS).
Non-integer numerals (fractions, exponents) are rejected; the grade data
the claims concern carries integers only.  Any trailing non-whitespace
makes the whole parse fail, as with `JSON.parse`. -/

/-- Skip leading JSON whitespace. -/
def skipWs : List Char → List Char
  | [] => []
  | c :: cs => if isWsChar c then skipWs cs else c :: cs

/-- Decimal digit value of a character (code points 48–57), `none` for
anything else. -/
def digitVal (c : Char) : Option Nat :=
  let n := c.toNat
  if 48 ≤ n ∧ n ≤ 57 then some (n - 48) else none

/-- Hexadecimal value of a character, for `\uXXXX` escapes: decimal digits,
then the lowercase letters at code points 97–102, then the uppercase ones
at 65–70. -/
def hexVal (c : Char) : Option Nat :=
  match digitVal c with
  | some d => some d
  | none =>
    let n := c.toNat
    if 97 ≤ n ∧ n ≤ 102 then some (n - 87)
    else if 65 ≤ n ∧ n ≤ 70 then some (n - 55)
    else none

/-- The character denoted by a single-character JSON escape (`\n`, `\t`, …);
`none` when the escape is not one of the simple ones. -/
def escChar (e : Char) : Option Char :=
  if e == '"' then some '"'
  else if e == '\\' then some '\\'
  else if e == '/' then some '/'
  else if e == 'b' then some '\x08'
  else if e == 'f' then some '\x0c'
  else if e == 'n' then some '\n'
  else if e == 'r' then some '\r'
  else if e == 't' then some '\t'
  else none

/-- Parse the body of a JSON string literal (after the opening quote),
returning the decoded characters and the rest of the input. -/
def parseStrBody : List Char → Option (List Char × List Char)
  | [] => none
  | c :: cs =>
    if c == '"' then some ([], cs)
    else if c == '\\' then
      match cs with
      | [] => none
      | 'u' :: h1 :: h2 :: h3 :: h4 :: cs' =>
        (match hexVal h1, hexVal h2, hexVal h3, hexVal h4 with
         | some a, some b, some c3, some d4 =>
           (match parseStrBody cs' with
            | some (body, rem) =>
                some (Char.ofNat (a * 4096 + b * 256 + c3 * 16 + d4) :: body, rem)
            | none => none)
         | _, _, _, _ => none)
      | e :: cs' =>
        (match escChar e with
         | some d =>
           (match parseStrBody cs' with
            | some (body, rem) => some (d :: body, rem)
            | none => none)
         | none => none)
    else
      match parseStrBody cs with
      | some (body, rem) => some (c :: body, rem)
      | none => none

/-- Parse a run of decimal digits into a natural number accumulator. -/
def parseDigits : List Char → Nat → Option (Nat × List Char)
  | [], _ => none
  | c :: cs, acc =>
    match digitVal c with
    | none => none
    | some d =>
      let acc' := acc * 10 + d
      match cs with
      | [] => some (acc', [])
      | c2 :: _ =>
        match digitVal c2 with
        | some _ => parseDigits cs acc'
        | none => some (acc', cs)

/-- Insert a key into an already-parsed member list, keeping the earlier
position but the later value when the key repeats (JS object semantics
for duplicate keys in a JSON text). -/
def setField (fields : List (List Char × JSValue)) (key : List Char)
    (v : JSValue) : List (List Char × JSValue) :=
  match fields with
  | [] => [(key, v)]
  | p :: rest => if p.1 == key then (key, v) :: rest else p :: setField rest key v

mutual

/-- Parse one JSON value (after skipping leading whitespace). -/
def parseVal (fuel : Nat) (s : List Char) : Option (JSValue × List Char) :=
  match fuel with
  | 0 => none
  | fuel + 1 =>
    match skipWs s with
    | 'n' :: 'u' :: 'l' :: 'l' :: rest => some (.vNull, rest)
    | 't' :: 'r' :: 'u' :: 'e' :: rest => some (.vBool true, rest)
    | 'f' :: 'a' :: 'l' :: 's' :: 'e' :: rest => some (.vBool false, rest)
    | '"' :: rest =>
      match parseStrBody rest with
      | some (body, rem) => some (.vStr body, rem)
      | none => none
    | '-' :: rest =>
      match parseDigits rest 0 with
      | some (n, rem) => some (.vNum (-(n : Int)), rem)
      | none => none
    | '[' :: rest =>
      (match skipWs rest with
       | ']' :: rem => some (.vArr [], rem)
       | _ =>
         match parseElems fuel rest with
         | some (elems, rem) => some (.vArr elems, rem)
         | none => none)
    | '\x7b' :: rest =>
      (match skipWs rest with
       | '\x7d' :: rem => some (.vObj [], rem)
       | _ =>
         match parseMembers fuel rest with
         | some (fields, rem) => some (.vObj fields, rem)
         | none => none)
    | c :: rest =>
      match digitVal c with
      | some _ =>
        (match parseDigits (c :: rest) 0 with
         | some (n, rem) => some (.vNum (n : Int), rem)
         | none => none)
      | none => none
    | [] => none

/-- Parse a nonempty comma-separated list of array elements and the closing
bracket. -/
def parseElems (fuel : Nat) (s : List Char) : Option (List JSValue × List Char) :=
  match fuel with
  | 0 => none
  | fuel + 1 =>
    match parseVal fuel s with
    | some (v, rest) =>
      (match skipWs rest with
       | ',' :: rest' =>
         (match parseElems fuel rest' with
          | some (vs, rem) => some (v :: vs, rem)
          | none => none)
       | ']' :: rem => some ([v], rem)
       | _ => none)
    | none => none

/-- Parse a nonempty comma-separated list of object members and the closing
brace.  A repeated key keeps the last value, as `JSON.parse` does. -/
def parseMembers (fuel : Nat) (s : List Char) :
    Option (List (List Char × JSValue) × List Char) :=
  match fuel with
  | 0 => none
  | fuel + 1 =>
    match skipWs s with
    | '"' :: rest =>
      (match parseStrBody rest with
       | some (key, rest1) =>
         (match skipWs rest1 with
          | ':' :: rest2 =>
            (match parseVal fuel rest2 with
             | some (v, rest3) =>
               (match skipWs rest3 with
                | ',' :: rest4 =>
                  (match parseMembers fuel rest4 with
                   | some (fields, rem) => some (setField fields key v, rem)
                   | none => none)
                | '\x7d' :: rem => some ([(key, v)], rem)
                | _ => none)
             | none => none)
          | _ => none)
       | none => none)
    | _ => none

end

/-- The model of `JSON.parse`: parse one value, then require only
whitespace to remain.  `none` models a thrown `SyntaxError`. -/
def jsonParse (s : List Char) : Option JSValue :=
  match parseVal (s.length + 1) s with
  | some (v, rest) => if (skipWs rest).isEmpty then some v else none
  | none => none

/-! ## The sanitizer `parseJsonSafely` (essay.service.js lines 97–125)

The source: returns `null` for falsy input; returns non-array objects
unchanged; for strings it trims, strips a leading literal 7-character fence
and a trailing 3-backtick fence when present, re-trims, and runs a single
`JSON.parse` inside `try`/`catch`, returning `null` on a parse error; every
other value (arrays included) yields `null`. -/

/-- The cleaning the source applies to a string before `JSON.parse`:
`trim`, drop the 7 characters of the leading fence when
`startsWith('` + "``json" + `')`, drop the last 3 when `endsWith` three
backticks, then `trim` again. -/
def cleanString (s : List Char) : List Char :=
  let c0 := trimList s
  let c1 := if startsWithL c0 jsonFence then c0.drop 7 else c0
  let c2 := if endsWithL c1 tick3 then dropRightL 3 c1 else c1
  trimList c2

/-- `parseJsonSafely` of the source, as a pure function: the `catch`
branch and every non-string fall-through return the JS value `null`. -/
def parseJsonSafely (data : JSValue) : JSValue :=
  if isFalsy data then .vNull
  else
    match data with
    | .vObj fields => .vObj fields
    | .vStr s =>
      (match jsonParse (cleanString s) with
       | some v => v
       | none => .vNull)
    | _ => .vNull

/-- `parseJsonSafely` with the JS exception behaviour made explicit:
`JSON.parse` is the only throwing operation in its body, rendered here as
`Except` (`.error` = thrown `SyntaxError`), and the source's `try`/`catch`
turns that error into a returned `null`.  `.error` in the result would mean
the function let an exception escape. -/
def parseJsonSafelyE (data : JSValue) : Except (List Char) JSValue :=
  if isFalsy data then .ok .vNull
  else
    match data with
    | .vObj fields => .ok (.vObj fields)
    | .vStr s =>
      (match (match jsonParse (cleanString s) with
              | some v => Except.ok v
              | none => Except.error ("SyntaxError".data)) with
       | .ok v => .ok v
       | .error _ => .ok .vNull)
    | _ => .ok .vNull

/-! ## The sanitizer algorithm the specification describes (§4.1)

Modelled from the spec, for comparison with the source sanitizer: trim;
strip a leading fence with an optional language tag and the trailing fence;
strict decode; on failure retry with newlines removed; on failure retry on
the first balanced brace span; else fail. -/

/-- Spec §4.1 step 2: strip a leading fence marker with an optional
language tag (everything up to the end of the fence line) and the trailing
fence when present. -/
def stripSpecFence (t : List Char) : List Char :=
  if startsWithL t tick3 then
    let afterTag := (t.drop 3).dropWhile (fun c => !(c == '\n'))
    let body := afterTag.drop 1
    if endsWithL body tick3 then dropRightL 3 body else body
  else t

/-- Spec §4.1 step 4: remove newline and carriage-return characters. -/
def removeNewlines (l : List Char) : List Char :=
  l.filter (fun c => !(c == '\n' || c == '\r'))

/-- Brace matching for spec §4.1 step 5: consume until the brace depth
returns to zero, accumulating the span. -/
def braceAux : List Char → Nat → List Char → Option (List Char)
  | [], _, _ => none
  | c :: rest, depth, acc =>
    if c == '\x7b' then braceAux rest (depth + 1) (acc ++ [c])
    else if c == '\x7d' then
      if depth == 1 then some (acc ++ [c])
      else braceAux rest (depth - 1) (acc ++ [c])
    else braceAux rest depth (acc ++ [c])

/-- Spec §4.1 step 5: the first balanced `\x7b...\x7d` span of the text. -/
def firstBraceSpan (l : List Char) : Option (List Char) :=
  match l.dropWhile (fun c => !(c == '\x7b')) with
  | [] => none
  | c :: rest => braceAux rest 1 [c]

/-- The full sanitizer of spec §4.1, modelled from the spec's ordered
fallback list.  The source sanitizer is compared against this. -/
def sanitizeSpecModel (raw : List Char) : Option JSValue :=
  let t := stripSpecFence (trimList raw)
  match jsonParse t with
  | some v => some v
  | none =>
    match jsonParse (removeNewlines t) with
    | some v => some v
    | none =>
      match firstBraceSpan t with
      | some span => jsonParse span
      | none => none

/-! ## The persisted data model (Prisma `Essay` and `Correction`) -/

/-- An `Essay` row: id, owning user, topic, body text, creation instant.
`createdAt` is a logical clock; the store below hands out strictly
increasing values, so "latest by creation timestamp" is well defined. -/
structure Essay where
  id : Nat
  userId : Nat
  topic : List Char
  text : List Char
  createdAt : Nat
deriving DecidableEq

/-- A `Correction` row: id, owning essay, the `total` value the service
stored, the structured payload stored in the `notes` Json column, creation
instant. -/
structure Correction where
  id : Nat
  essayId : Nat
  total : JSValue
  notes : JSValue
  createdAt : Nat

/-- The backing store: the two tables, plus an id counter and the logical
clock used for `createdAt`.  Rows are kept in insertion order, which is the
order Prisma returns them in when no `orderBy` is given. -/
structure DB where
  essays : List Essay
  corrections : List Correction
  nextId : Nat
  clock : Nat

/-- The empty store. -/
def emptyDB : DB := ⟨[], [], 0, 0⟩

/-- The corrections of one essay, in insertion order. -/
def correctionsOf (db : DB) (eid : Nat) : List Correction :=
  db.corrections.filter (fun c => c.essayId == eid)

/-- `orderBy createdAt desc, take 1`: the correction with the greatest
`createdAt` (the first such one when equal, which the store never produces). -/
def latestCorrection : List Correction → Option Correction
  | [] => none
  | c :: cs =>
    match latestCorrection cs with
    | none => some c
    | some b => if b.createdAt > c.createdAt then some b else some c

/-- Key `"total"` of the grade payload. -/
def kTotal : List Char := "total".data

/-- Key `"competencias"` of the grade payload. -/
def kCompetencias : List Char := "competencias".data

/-- Key `"c5"` of the competency map. -/
def kC5 : List Char := "c5".data

/-- Key `"nota"` of one competency entry. -/
def kNota : List Char := "nota".data

/-! ## The correction pipeline `submitEssay` (lines 144–238)

The external Gemini call and `extractRawTextFromResponse` are modelled by
the `raw` argument: the text extracted from the grading response, with the
empty string standing for a response from which no text could be extracted
(lines 168–180, which throw before any parsing).  Every `throw` of the
source is an `Except.error` paired with the store left untouched. -/

/-- What `submitEssay` returns to the caller on success: the created
correction row, with `notes` replaced by the already-parsed object, plus
the owning essay. -/
structure SubmitResult where
  correction : Correction
  notesOut : JSValue
  essay : Essay

/-- `submitEssay` of the source over the explicit store.  Checks inputs,
parses the raw grading text with `parseJsonSafely`, rejects a result that
is falsy or whose `total` is `undefined`/`null`, then finds or creates the
`(user, topic, text)` essay and appends a correction row carrying the
externally supplied `total` and the parsed payload. -/
def submitEssay (uid : Nat) (essayText essayTopic : List Char)
    (raw : List Char) (db : DB) : DB × Except String SubmitResult :=
  if essayText.isEmpty || essayTopic.isEmpty then
    (db, .error "O texto e o tema da redação são obrigatórios.")
  else if raw.isEmpty then
    (db, .error "O modelo Gemini não retornou o texto de correção.")
  else
    let parsedCorrection := parseJsonSafely (.vStr raw)
    if isFalsy parsedCorrection || isNullish (getField parsedCorrection kTotal) then
      (db, .error "O modelo retornou uma correção inválida ou incompleta.")
    else
      match db.essays.find? (fun e =>
          e.userId == uid && e.topic == essayTopic && e.text == essayText) with
      | some essay =>
        let corr : Correction :=
          ⟨db.nextId, essay.id, getField parsedCorrection kTotal, parsedCorrection, db.clock⟩
        ({ db with corrections := db.corrections ++ [corr],
                   nextId := db.nextId + 1, clock := db.clock + 1 },
         .ok ⟨corr, parsedCorrection, essay⟩)
      | none =>
        let essay : Essay := ⟨db.nextId, uid, essayTopic, essayText, db.clock⟩
        let db1 : DB := { db with essays := db.essays ++ [essay],
                                  nextId := db.nextId + 1, clock := db.clock + 1 }
        let corr : Correction :=
          ⟨db1.nextId, essay.id, getField parsedCorrection kTotal, parsedCorrection, db1.clock⟩
        ({ db1 with corrections := db1.corrections ++ [corr],
                    nextId := db1.nextId + 1, clock := db1.clock + 1 },
         .ok ⟨corr, parsedCorrection, essay⟩)

/-! ## History (`getEssayHistory`, lines 243–272) -/

/-- One entry of the history listing: the essay's fields together with the
latest correction, whose `notes` the source replaces by the parsed object. -/
structure HistoryEntry where
  essay : Essay
  correction : Correction

/-- Insert into a list of essays ordered by `createdAt` descending. -/
def insertDesc (e : Essay) : List Essay → List Essay
  | [] => [e]
  | x :: xs => if x.createdAt ≤ e.createdAt then e :: x :: xs else x :: insertDesc e xs

/-- `orderBy createdAt desc` over essays. -/
def sortByCreatedDesc (l : List Essay) : List Essay :=
  l.foldr insertDesc []

/-- `getEssayHistory`: the user's essays newest first, those without
corrections dropped, each carrying its latest correction with parsed
`notes`.  The source's filter-then-`corrections[0]` pair is rendered as one
`filterMap` on the latest correction, which exists exactly when the filter
keeps the essay. -/
def getEssayHistory (uid : Nat) (db : DB) : List HistoryEntry :=
  let history := sortByCreatedDesc (db.essays.filter (fun e => e.userId == uid))
  history.filterMap (fun e =>
    (latestCorrection (correctionsOf db e.id)).map (fun latest =>
      ⟨e, { latest with notes := parseJsonSafely latest.notes }⟩))

/-! ## Analytics (`getEssayAnalytics`, lines 311–370)

Both analytics and achievements start from the same query: every essay of
the user with its latest correction, then `filter(e =>
e.corrections.length > 0)`.  The shared pieces are defined once here and
used by both embeddings. -/

/-- The user's essays that have at least one correction, in stored order
(the source's `findMany` has no `orderBy` on essays). -/
def gradedEssaysOf (uid : Nat) (db : DB) : List Essay :=
  (db.essays.filter (fun e => e.userId == uid)).filter
    (fun e => !(correctionsOf db e.id).isEmpty)

/-- The `notes` column of the essay's latest correction
(`e.corrections[0].notes` under `orderBy createdAt desc, take 1`);
`undefined` when the essay has no corrections, which the graded filter
rules out. -/
def latestNotes (db : DB) (e : Essay) : JSValue :=
  match latestCorrection (correctionsOf db e.id) with
  | some c => c.notes
  | none => .vUndefined

/-- `gradedEssays.map(e => parseJsonSafely(e.corrections[0].notes)?.total)
.filter(score => score != null)`: the parseable totals, in order. -/
def essayGradesOf (uid : Nat) (db : DB) : List JSValue :=
  ((gradedEssaysOf uid db).map
      (fun e => getField (parseJsonSafely (latestNotes db e)) kTotal)).filter
    (fun v => !(isNullish v))

/-- `reduce((sum, score) => sum + score, 0)` over the numeric reading of
the kept totals. -/
def sumNum (l : List JSValue) : Int :=
  l.foldl (fun acc v => acc + numOf v) 0

/-- `Math.max(...l)` over the numeric readings; `none` models the
`-Infinity` JS produces on an empty spread. -/
def maxNum : List JSValue → Option Int
  | [] => none
  | v :: vs => some (vs.foldl (fun acc x => max acc (numOf x)) (numOf v))

/-- `Math.round(a / b)` for integer `a` and positive integer `b`:
round half toward positive infinity, as `Math.round` does. -/
def jsRoundDiv (a : Int) (b : Int) : Int :=
  Int.fdiv (2 * a + b) (2 * b)

/-- `acc[key] || 0` on the per-competency accumulator. -/
def lookup0 (acc : List (List Char × Int)) (k : List Char) : Int :=
  match acc.find? (fun p => p.1 == k) with
  | some p => p.2
  | none => 0

/-- `acc[key] = v` on the accumulator object: overwrite in place, append
when new (JS object key order). -/
def updateAssoc (acc : List (List Char × Int)) (k : List Char) (v : Int) :
    List (List Char × Int) :=
  match acc with
  | [] => [(k, v)]
  | p :: rest => if p.1 == k then (k, v) :: rest else p :: updateAssoc rest k v

/-- `gradedEssays.map(e => parseJsonSafely(...)?.competencias)
.filter(c => c != null)`: the parseable competency maps, in order. -/
def competenceScoresOf (uid : Nat) (db : DB) : List JSValue :=
  ((gradedEssaysOf uid db).map
      (fun e => getField (parseJsonSafely (latestNotes db e)) kCompetencias)).filter
    (fun v => !(isNullish v))

/-- The inner `Object.keys(current).forEach` of the competency reduce: for
each key whose `nota` is non-nullish, add it into the accumulator. -/
def addScores (acc : List (List Char × Int)) (current : JSValue) :
    List (List Char × Int) :=
  (keysOf current).foldl (fun acc2 k =>
    let score := getField (getField current k) kNota
    if !(isNullish score) then updateAssoc acc2 k (lookup0 acc2 k + numOf score)
    else acc2) acc

/-- The full `reduce` building `sumScores`. -/
def sumScoresOf (scores : List JSValue) : List (List Char × Int) :=
  scores.foldl addScores []

/-- The analytics snapshot the service returns.  `highestGrade` is an
`Option Int` because `Math.max()` of an empty spread is `-Infinity`,
modelled as `none`. -/
structure AnalyticsSnapshot where
  totalEssays : Nat
  averageGrade : Int
  highestGrade : Option Int
  recentGrades : List JSValue
  competenceAverages : List (List Char × Int)

/-- `getEssayAnalytics` of the source: count of essays having corrections,
mean of the parseable totals divided by that count, maximum, the first five
kept totals reversed, and per-competency means over the parseable
competency maps. -/
def getEssayAnalytics (uid : Nat) (db : DB) : AnalyticsSnapshot :=
  let gradedEssays := gradedEssaysOf uid db
  let essayGrades := essayGradesOf uid db
  let totalEssays := gradedEssays.length
  let averageGrade :=
    if 0 < totalEssays then jsRoundDiv (sumNum essayGrades) (totalEssays : Int) else 0
  let highestGrade := if 0 < totalEssays then maxNum essayGrades else some 0
  let recentGrades := (essayGrades.take 5).reverse
  let competenceScores := competenceScoresOf uid db
  let competenceAverages :=
    if 0 < competenceScores.length then
      (sumScoresOf competenceScores).map
        (fun p => (p.1, jsRoundDiv p.2 (competenceScores.length : Int)))
    else []
  ⟨totalEssays, averageGrade, highestGrade, recentGrades, competenceAverages⟩

/-! ## Achievements (`getUserAchievements`, lines 376–423) -/

/-- One achievement entry as returned to the client. -/
structure Achievement where
  id : String
  title : String
  description : String
  unlocked : Bool
deriving DecidableEq

/-- `?.competencias?.c5?.nota` over the parsed latest notes, filtered to
the non-nullish scores, as the source computes `c5Scores`. -/
def c5ScoresOf (uid : Nat) (db : DB) : List JSValue :=
  ((gradedEssaysOf uid db).map (fun e =>
      getField (getField (getField (parseJsonSafely (latestNotes db e))
        kCompetencias) kC5) kNota)).filter
    (fun v => !(isNullish v))

/-- `score === 200` under JS strict equality. -/
def isNota200 : JSValue → Bool
  | .vNum n => n == 200
  | _ => false

/-- `getUserAchievements` of the source: a three-entry list with computed
`unlocked` flags; then, only when some `c5` score is strictly equal to 200,
the `master_c5` entry is looked up in that list (never found there) and
therefore pushed. -/
def getUserAchievements (uid : Nat) (db : DB) : List Achievement :=
  let essayGrades := essayGradesOf uid db
  let achievements : List Achievement :=
    [⟨"first_essay", "Primeiro Passo", "Submeta sua primeira redação.",
        decide (1 ≤ essayGrades.length)⟩,
     ⟨"five_essays", "Cinco na Conta", "Submeta 5 redações.",
        decide (5 ≤ essayGrades.length)⟩,
     ⟨"road_to_1000", "Quase Perfeito", "Alcance uma nota de 900+.",
        essayGrades.any (fun g => decide (900 ≤ numOf g))⟩]
  let c5Scores := c5ScoresOf uid db
  if c5Scores.any isNota200 then
    match achievements.find? (fun a => a.id == "master_c5") with
    | some _ =>
      achievements.map (fun a =>
        if a.id == "master_c5" then
          { a with title := "Mestre da Proposta",
                   description := "Alcance 200 pontos na Competência 5.",
                   unlocked := true }
        else a)
    | none =>
      achievements ++
        [⟨"master_c5", "Mestre da Proposta",
          "Alcance 200 pontos na Competência 5.", true⟩]
  else achievements

/-- A raw response wrapped in the exact markdown fence the Gemini prompt
produces: the 7-character fence, a newline, the payload, a newline, three
backticks. -/
def wrapJson (s : List Char) : List Char :=
  jsonFence ++ ('\n' :: (s ++ ('\n' :: tick3)))

/-! # Lemmas about trimming -/

/-- Dropping a leading whitespace character does not change `trimLeft`. -/
theorem trimLeft_cons_ws {c : Char} (h : isWsChar c = true) (l : List Char) :
    trimLeft (c :: l) = trimLeft l := by
  simp [trimLeft, List.dropWhile_cons, h]

/-- A leading non-whitespace character stops `trimLeft`. -/
theorem trimLeft_cons_not_ws {c : Char} (h : isWsChar c = false) (l : List Char) :
    trimLeft (c :: l) = c :: l := by
  simp [trimLeft, List.dropWhile_cons, h]

/-- Dropping a trailing whitespace character does not change `trimRight`. -/
theorem trimRight_append_ws {c : Char} (h : isWsChar c = true) (l : List Char) :
    trimRight (l ++ [c]) = trimRight l := by
  simp [trimRight, List.reverse_append, trimLeft_cons_ws h]

/-- A trailing whitespace character disappears under a full trim. -/
theorem trimRight_trimLeft_append_ws {c : Char} (h : isWsChar c = true)
    (l : List Char) : trimRight (trimLeft (l ++ [c])) = trimRight (trimLeft l) := by
  induction l with
  | nil => simp [trimLeft, List.dropWhile, h]
  | cons a l ih =>
    by_cases ha : isWsChar a = true
    · rw [List.cons_append, trimLeft_cons_ws ha, trimLeft_cons_ws ha, ih]
    · rw [List.cons_append, trimLeft_cons_not_ws (by simpa using ha),
        trimLeft_cons_not_ws (by simpa using ha), ← List.cons_append,
        trimRight_append_ws h]

/-- `trim` ignores a leading whitespace character. -/
theorem trimList_cons_ws {c : Char} (h : isWsChar c = true) (l : List Char) :
    trimList (c :: l) = trimList l := by
  simp [trimList, trimLeft_cons_ws h]

/-- `trim` ignores a trailing whitespace character. -/
theorem trimList_append_ws {c : Char} (h : isWsChar c = true) (l : List Char) :
    trimList (l ++ [c]) = trimList l :=
  trimRight_trimLeft_append_ws h l

/-- `trimLeft` is idempotent. -/
theorem trimLeft_idem (l : List Char) : trimLeft (trimLeft l) = trimLeft l := by
  induction l with
  | nil => rfl
  | cons a l ih =>
    by_cases ha : isWsChar a = true
    · rw [trimLeft_cons_ws ha, ih]
    · rw [trimLeft_cons_not_ws (by simpa using ha),
        trimLeft_cons_not_ws (by simpa using ha)]

/-- `trimLeft` of a list ending in a non-whitespace character still ends in
that character. -/
theorem trimLeft_append_last {c : Char} (h : isWsChar c = false) (l : List Char) :
    ∃ z, trimLeft (l ++ [c]) = z ++ [c] := by
  induction l with
  | nil => exact ⟨[], by simp [trimLeft_cons_not_ws h]⟩
  | cons a l ih =>
    by_cases ha : isWsChar a = true
    · rw [List.cons_append, trimLeft_cons_ws ha]; exact ih
    · exact ⟨a :: l, by
        rw [List.cons_append, trimLeft_cons_not_ws (by simpa using ha)]⟩

/-- Trimming never lengthens a list. -/
theorem trimLeft_length_le (l : List Char) : (trimLeft l).length ≤ l.length := by
  induction l with
  | nil => simp [trimLeft]
  | cons a l ih =>
    by_cases ha : isWsChar a = true
    · rw [trimLeft_cons_ws ha]; exact Nat.le_succ_of_le ih
    · rw [trimLeft_cons_not_ws (by simpa using ha)]

/-- A list fixed by `trimLeft` stays fixed by `trimLeft` after `trimRight`. -/
theorem trimLeft_trimRight_of_fix {l : List Char} (h : trimLeft l = l) :
    trimLeft (trimRight l) = trimRight l := by
  cases l with
  | nil => rfl
  | cons c l =>
    have hc : isWsChar c = false := by
      by_contra hw
      have hw' : isWsChar c = true := by simpa using hw
      have hlen := trimLeft_length_le l
      have heq : trimLeft l = c :: l := by rw [← trimLeft_cons_ws hw', h]
      have := congrArg List.length heq
      simp at this
      omega
    obtain ⟨z, hz⟩ := trimLeft_append_last hc l.reverse
    have : trimRight (c :: l) = c :: z.reverse := by
      simp only [trimRight, List.reverse_cons, hz, List.reverse_append,
        List.reverse_singleton]
      rfl
    rw [this, trimLeft_cons_not_ws hc]

/-- `trimRight` is idempotent. -/
theorem trimRight_idem (l : List Char) : trimRight (trimRight l) = trimRight l := by
  simp only [trimRight, List.reverse_reverse, trimLeft_idem]

/-- `trim` is idempotent. -/
theorem trimList_idem (l : List Char) : trimList (trimList l) = trimList l := by
  simp only [trimList]
  rw [trimLeft_trimRight_of_fix (trimLeft_idem l), trimRight_idem]

/-- Every list starts with itself padded on the right. -/
theorem startsWithL_append (p r : List Char) : startsWithL (p ++ r) p = true := by
  induction p with
  | nil => cases r with | nil => rfl | cons a as => rfl
  | cons c p ih => simp [startsWithL, ih]

/-- A trailing non-whitespace character stops `trimRight`. -/
theorem trimRight_append_not_ws {c : Char} (h : isWsChar c = false) (l : List Char) :
    trimRight (l ++ [c]) = l ++ [c] := by
  simp [trimRight, List.reverse_append, trimLeft_cons_not_ws h]

/-- Cleaning a fence-wrapped payload leaves exactly the trimmed payload:
the wrapper is not trimmed (it starts and ends on a backtick), the leading
7 characters and trailing 3 are stripped, and the framing newlines go in
the final trim. -/
theorem cleanString_wrap (s : List Char) :
    cleanString (wrapJson s) = trimList s := by
  have htrim : trimList (wrapJson s) = wrapJson s := by
    have hw : wrapJson s
        = (jsonFence ++ '\n' :: (s ++ ['\n', '\x60', '\x60'])) ++ ['\x60'] := by
      simp [wrapJson, tick3]
    have h1 : trimLeft (wrapJson s) = wrapJson s := by
      simp only [wrapJson, jsonFence, List.cons_append]
      rw [trimLeft_cons_not_ws (by decide)]
    rw [trimList, h1, hw, trimRight_append_not_ws (by decide)]
  have hstart : startsWithL (wrapJson s) jsonFence = true := by
    simp only [wrapJson]
    exact startsWithL_append _ _
  have hdrop : (wrapJson s).drop 7 = '\n' :: (s ++ ('\n' :: tick3)) := by
    simp only [wrapJson]
    have h7 : (7 : Nat) = jsonFence.length := by decide
    rw [h7, List.drop_left]
  have hend : endsWithL ('\n' :: (s ++ ('\n' :: tick3))) tick3 = true := by
    have hrev : ('\n' :: (s ++ ('\n' :: tick3))).reverse
        = tick3 ++ ('\n' :: (s.reverse ++ ['\n'])) := by
      simp [tick3]
    rw [endsWithL, hrev]
    have h3 : tick3.reverse = tick3 := by decide
    rw [h3]
    exact startsWithL_append _ _
  have htake : dropRightL 3 ('\n' :: (s ++ ('\n' :: tick3))) = '\n' :: (s ++ ['\n']) := by
    have hlen : ('\n' :: (s ++ ('\n' :: tick3))).length - 3 = s.length + 2 := by
      simp [tick3]
    rw [dropRightL, hlen]
    have h21 : s.length + 2 = (s.length + 1) + 1 := by omega
    rw [h21, List.take_succ_cons]
    rw [show ('\n' :: tick3) = ['\n'] ++ tick3 from rfl]
    rw [← List.append_assoc]
    have hl : (s ++ ['\n']).length = s.length + 1 := by simp
    rw [← hl, List.take_left]
  have hfinal : trimList ('\n' :: (s ++ ['\n'])) = trimList s := by
    rw [trimList_cons_ws (by decide), trimList_append_ws (by decide)]
  simp [cleanString, htrim, hstart, hdrop, hend, htake, hfinal]

/-! # The claims -/

/-- C3, counterexample.  The claim's fence handling and fallback ladder are
not what the source does: a fence without the literal `json` tag is not
stripped, so the wrapped string sanitizes to `null` while the unwrapped
string sanitizes to the object — refuting "for all raw strings wrapped in
a markdown fence, sanitize yields the same result as the unwrapped
string".  And a response with prose around the JSON object fails in the
source although the spec's own algorithm (brace-span fallback, modelled by
`sanitizeSpecModel`) succeeds on it, refuting the claimed fallback steps. -/
theorem c3_counterexample :
    parseJsonSafely (.vStr ("\x60\x60\x60\n\x7b\"a\":1\x7d\n\x60\x60\x60".data)) = .vNull
    ∧ parseJsonSafely (.vStr ("\x7b\"a\":1\x7d".data)) = .vObj [("a".data, .vNum 1)]
    ∧ parseJsonSafely (.vStr ("\x60\x60\x60\n\x7b\"a\":1\x7d\n\x60\x60\x60".data))
        ≠ parseJsonSafely (.vStr ("\x7b\"a\":1\x7d".data))
    ∧ parseJsonSafely (.vStr ("resultado: \x7b\"total\":840\x7d".data)) = .vNull
    ∧ sanitizeSpecModel ("resultado: \x7b\"total\":840\x7d".data)
        = some (.vObj [(kTotal, .vNum 840)]) := by
  refine ⟨rfl, rfl, ?_, rfl, rfl⟩
  rw [show parseJsonSafely (.vStr ("\x60\x60\x60\n\x7b\"a\":1\x7d\n\x60\x60\x60".data))
      = .vNull from rfl]
  rw [show parseJsonSafely (.vStr ("\x7b\"a\":1\x7d".data))
      = .vObj [("a".data, .vNum 1)] from rfl]
  simp

/-- C3, amended: the source sanitizer trims, strips only the literal
7-character `json` fence and a trailing 3-backtick fence, and makes exactly
one strict decode attempt on the re-trimmed text, yielding the null marker
on failure with no newline-removal or brace-extraction retries; fence
idempotence holds for a payload wrapped in the exact fence the prompt
requests, provided the trimmed payload does not itself look fence-wrapped. -/
theorem c3_amended (s : List Char) (h0 : s.isEmpty = false)
    (h1 : startsWithL (trimList s) jsonFence = false)
    (h2 : endsWithL (trimList s) tick3 = false) :
    parseJsonSafely (.vStr s) = (jsonParse (trimList s)).getD .vNull
    ∧ parseJsonSafely (.vStr (wrapJson s)) = parseJsonSafely (.vStr s) := by
  have hwne : (wrapJson s).isEmpty = false := by
    simp [wrapJson, jsonFence]
  have hclean : cleanString s = trimList s := by
    simp [cleanString, h1, h2, trimList_idem]
  constructor
  · simp only [parseJsonSafely, isFalsy, h0, Bool.false_eq_true, if_false, hclean]
    cases jsonParse (trimList s) <;> rfl
  · simp only [parseJsonSafely, isFalsy, hwne, h0, Bool.false_eq_true, if_false,
      cleanString_wrap, hclean]

/-- C3, witness for the amended theorem at a concrete grade payload. -/
theorem c3_amended_witness :
    (("\x7b\"total\":840\x7d".data.isEmpty = false)
      ∧ startsWithL (trimList ("\x7b\"total\":840\x7d".data)) jsonFence = false
      ∧ endsWithL (trimList ("\x7b\"total\":840\x7d".data)) tick3 = false)
    ∧ (parseJsonSafely (.vStr ("\x7b\"total\":840\x7d".data))
          = (jsonParse (trimList ("\x7b\"total\":840\x7d".data))).getD .vNull
        ∧ parseJsonSafely (.vStr (wrapJson ("\x7b\"total\":840\x7d".data)))
          = parseJsonSafely (.vStr ("\x7b\"total\":840\x7d".data))) :=
  ⟨⟨by decide, by decide, by decide⟩,
   c3_amended ("\x7b\"total\":840\x7d".data) (by decide) (by decide) (by decide)⟩

/-- C4: for every input value the sanitizer returns normally — its
exception-explicit rendering `parseJsonSafelyE` never produces `.error`,
and what it returns is the tagged result computed by `parseJsonSafely`
(a value on success, the null marker on failure). -/
theorem c4_sanitizer_never_throws :
    ∀ d : JSValue, parseJsonSafelyE d = .ok (parseJsonSafely d) := by
  intro d
  by_cases hf : isFalsy d = true
  · simp [parseJsonSafelyE, parseJsonSafely, hf]
  · have hf' : isFalsy d = false := by simpa using hf
    cases d with
    | vStr s =>
      simp only [parseJsonSafelyE, parseJsonSafely, hf', Bool.false_eq_true, if_false]
      cases h : jsonParse (cleanString s) <;> simp [h]
    | vNull => simp [parseJsonSafelyE, parseJsonSafely, hf']
    | vUndefined => simp [parseJsonSafelyE, parseJsonSafely, hf']
    | vBool b => simp [parseJsonSafelyE, parseJsonSafely, hf']
    | vNum n => simp [parseJsonSafelyE, parseJsonSafely, hf']
    | vArr a => simp [parseJsonSafelyE, parseJsonSafely, hf']
    | vObj f => simp [parseJsonSafelyE, parseJsonSafely, hf']

/-- C10, counterexample.  `parseJsonSafely` is not idempotent: the string
`"5"` decodes to the number `5`, and a second application maps that number
to `null`. -/
theorem c10_counterexample :
    parseJsonSafely (.vStr ['5']) = .vNum 5
    ∧ parseJsonSafely (parseJsonSafely (.vStr ['5'])) ≠ parseJsonSafely (.vStr ['5']) := by
  refine ⟨rfl, ?_⟩
  rw [show parseJsonSafely (.vStr ['5']) = .vNum 5 from rfl]
  rw [show parseJsonSafely (.vNum 5) = .vNull from rfl]
  simp

/-- C10, amended: `parseJsonSafely` is idempotent on every input except a
string whose sanitized decode is neither an object nor `null`.  On such a
string, when the decode is a number, boolean or array the second
application returns `null` and so differs from the first; when the decode
is itself a string, the second application simply sanitizes that decoded
string afresh.  Independently, the function is the identity on every plain
object, and maps every array and every other non-string non-object input
to `null`. -/
theorem c10_amended :
    (∀ x, parseJsonSafely (parseJsonSafely x) = parseJsonSafely x
       ∨ ∃ s, x = .vStr s ∧ parseJsonSafely x ≠ .vNull
           ∧ (∀ fields, parseJsonSafely x ≠ .vObj fields)
           ∧ ((∃ s2, parseJsonSafely x = .vStr s2
                 ∧ parseJsonSafely (parseJsonSafely x) = parseJsonSafely (.vStr s2))
              ∨ (parseJsonSafely (parseJsonSafely x) = .vNull
                 ∧ parseJsonSafely (parseJsonSafely x) ≠ parseJsonSafely x)))
    ∧ (∀ fields, parseJsonSafely (.vObj fields) = .vObj fields)
    ∧ (∀ elems, parseJsonSafely (.vArr elems) = .vNull)
    ∧ (∀ n, parseJsonSafely (.vNum n) = .vNull)
    ∧ (∀ b, parseJsonSafely (.vBool b) = .vNull)
    ∧ parseJsonSafely .vNull = .vNull
    ∧ parseJsonSafely .vUndefined = .vNull := by
  refine ⟨?_, ?_, ?_, ?_, ?_, rfl, rfl⟩
  · intro x
    by_cases hf : isFalsy x = true
    · left
      have hx : parseJsonSafely x = .vNull := by simp [parseJsonSafely, hf]
      rw [hx]
      rfl
    · have hf' : isFalsy x = false := by simpa using hf
      cases x with
      | vObj fields =>
        left
        have hx : parseJsonSafely (.vObj fields) = .vObj fields := by
          simp [parseJsonSafely, hf']
        rw [hx, hx]
      | vStr s =>
        have hx : parseJsonSafely (.vStr s)
            = (match jsonParse (cleanString s) with
               | some v => v | none => .vNull) := by
          simp [parseJsonSafely, hf']
        cases h : jsonParse (cleanString s) with
        | none => left; rw [hx, h]; rfl
        | some v =>
          cases v with
          | vNull => left; rw [hx, h]; rfl
          | vObj fields => left; rw [hx, h]; rfl
          | vUndefined =>
            right
            refine ⟨s, rfl, by rw [hx, h]; simp, by intro fl; rw [hx, h]; simp,
              Or.inr ⟨?_, ?_⟩⟩
            · simp only [hx, h]
              rfl
            · simp only [hx, h]
              rw [show parseJsonSafely .vUndefined = .vNull from rfl]
              simp
          | vBool b =>
            have hp2 : parseJsonSafely (.vBool b) = .vNull := by cases b <;> rfl
            right
            refine ⟨s, rfl, by rw [hx, h]; simp, by intro fl; rw [hx, h]; simp,
              Or.inr ⟨?_, ?_⟩⟩
            · simp only [hx, h]
              exact hp2
            · simp only [hx, h]
              rw [hp2]
              simp
          | vNum n =>
            have hp2 : parseJsonSafely (.vNum n) = .vNull := by
              by_cases hn : n = 0
              · subst hn; rfl
              · have h0 : (n == 0) = false := by simpa using hn
                simp [parseJsonSafely, isFalsy, h0]
            right
            refine ⟨s, rfl, by rw [hx, h]; simp, by intro fl; rw [hx, h]; simp,
              Or.inr ⟨?_, ?_⟩⟩
            · simp only [hx, h]
              exact hp2
            · simp only [hx, h]
              rw [hp2]
              simp
          | vStr s2 =>
            right
            refine ⟨s, rfl, by rw [hx, h]; simp, by intro fl; rw [hx, h]; simp,
              Or.inl ⟨s2, ?_, ?_⟩⟩
            · rw [hx, h]
            · simp only [hx, h]
          | vArr a =>
            right
            refine ⟨s, rfl, by rw [hx, h]; simp, by intro fl; rw [hx, h]; simp,
              Or.inr ⟨?_, ?_⟩⟩
            · simp only [hx, h]
              rfl
            · simp only [hx, h]
              rw [show parseJsonSafely (.vArr a) = .vNull from rfl]
              simp
      | vNull => left; rfl
      | vUndefined => left; rfl
      | vBool b =>
        left
        have hb : b = true := by simpa [isFalsy] using hf'
        subst hb
        rfl
      | vNum n =>
        left
        have hx : parseJsonSafely (.vNum n) = .vNull := by
          simp only [parseJsonSafely, hf', Bool.false_eq_true, if_false]
        rw [hx]
        rfl
      | vArr a =>
        left
        have hx : parseJsonSafely (.vArr a) = .vNull := by
          simp only [parseJsonSafely, hf', Bool.false_eq_true, if_false]
        rw [hx]
        rfl
  · intro fields; rfl
  · intro elems; rfl
  · intro n
    by_cases hn : n = 0
    · subst hn; rfl
    · have h0 : (n == 0) = false := by simpa using hn
      simp [parseJsonSafely, isFalsy, h0]
  · intro b; cases b <;> rfl

set_option maxRecDepth 8000 in
/-- C1, counterexample.  A grade object whose five `nota` values sum to
1000 but whose `total` is 840 passes the pipeline's check and the persisted
correction carries the external 840, not the recomputed 1000: there is no
recomputation step in the source. -/
theorem c1_counterexample :
    (List.map (fun k => numOf (getField (getField (getField
        (parseJsonSafely (.vStr ("\x7b\"competencias\":\x7b\"c1\":\x7b\"nota\":200\x7d,\"c2\":\x7b\"nota\":200\x7d,\"c3\":\x7b\"nota\":200\x7d,\"c4\":\x7b\"nota\":200\x7d,\"c5\":\x7b\"nota\":200\x7d\x7d,\"total\":840\x7d".data)))
        kCompetencias) k) kNota))
      [kC5, "c1".data, "c2".data, "c3".data, "c4".data]).sum = 1000
    ∧ (submitEssay 1 ("X".data) ("T".data)
        ("\x7b\"competencias\":\x7b\"c1\":\x7b\"nota\":200\x7d,\"c2\":\x7b\"nota\":200\x7d,\"c3\":\x7b\"nota\":200\x7d,\"c4\":\x7b\"nota\":200\x7d,\"c5\":\x7b\"nota\":200\x7d\x7d,\"total\":840\x7d".data)
        emptyDB).1.corrections.map (fun c => c.total) = [.vNum 840]
    ∧ (840 : Int) ≠ 1000 := by
  refine ⟨rfl, rfl, by decide⟩

/-- C1, amended: whenever `submitEssay` succeeds, the persisted correction
carries exactly the externally supplied `total` field of the parsed grade
object — the pipeline trusts it and performs no recomputation from the
competency scores. -/
theorem c1_amended (uid : Nat) (text topic raw : List Char) (db : DB)
    (r : SubmitResult)
    (h : (submitEssay uid text topic raw db).2 = .ok r) :
    r.correction.total = getField (parseJsonSafely (.vStr raw)) kTotal
    ∧ r.correction ∈ (submitEssay uid text topic raw db).1.corrections := by
  unfold submitEssay at h ⊢
  split at h
  · simp at h
  · split at h
    · simp at h
    · split at h
      · simp only [] at h
        split at h
        · simp at h
        · simp at h
          subst h
          refine ⟨rfl, ?_⟩
          simp [*]
      · simp only [] at h
        split at h
        · simp at h
        · simp at h
          subst h
          refine ⟨rfl, ?_⟩
          simp [*]

/-- C1, witness for the amended theorem: a concrete successful submission
persisting the external total 840. -/
theorem c1_amended_witness :
    ((submitEssay 1 ("X".data) ("T".data) ("\x7b\"total\":840\x7d".data) emptyDB).2
        = .ok ⟨⟨1, 0, .vNum 840, .vObj [(kTotal, .vNum 840)], 1⟩,
               .vObj [(kTotal, .vNum 840)], ⟨0, 1, "T".data, "X".data, 0⟩⟩)
    ∧ ((⟨⟨1, 0, .vNum 840, .vObj [(kTotal, .vNum 840)], 1⟩,
          .vObj [(kTotal, .vNum 840)], ⟨0, 1, "T".data, "X".data, 0⟩⟩ :
            SubmitResult).correction.total
          = getField (parseJsonSafely (.vStr ("\x7b\"total\":840\x7d".data))) kTotal
       ∧ (⟨⟨1, 0, .vNum 840, .vObj [(kTotal, .vNum 840)], 1⟩,
            .vObj [(kTotal, .vNum 840)], ⟨0, 1, "T".data, "X".data, 0⟩⟩ :
              SubmitResult).correction
          ∈ (submitEssay 1 ("X".data) ("T".data) ("\x7b\"total\":840\x7d".data)
              emptyDB).1.corrections) :=
  ⟨rfl, c1_amended 1 ("X".data) ("T".data) ("\x7b\"total\":840\x7d".data) emptyDB
    ⟨⟨1, 0, .vNum 840, .vObj [(kTotal, .vNum 840)], 1⟩,
     .vObj [(kTotal, .vNum 840)], ⟨0, 1, "T".data, "X".data, 0⟩⟩ rfl⟩

/-- C2, counterexample.  A decoded object with no `competencias` key at all
(so every one of `c1..c5` is missing) is accepted by the pipeline's check
and a correction row is persisted, refuting the claim that such objects
are rejected. -/
theorem c2_counterexample :
    getField (parseJsonSafely (.vStr ("\x7b\"total\":840\x7d".data))) kCompetencias
      = .vUndefined
    ∧ (submitEssay 1 ("X".data) ("T".data) ("\x7b\"total\":840\x7d".data) emptyDB).2
        = .ok ⟨⟨1, 0, .vNum 840, .vObj [(kTotal, .vNum 840)], 1⟩,
               .vObj [(kTotal, .vNum 840)], ⟨0, 1, "T".data, "X".data, 0⟩⟩
    ∧ (submitEssay 1 ("X".data) ("T".data) ("\x7b\"total\":840\x7d".data)
        emptyDB).1.corrections.length = 1 :=
  ⟨rfl, rfl, rfl⟩

/-- C2, amended: the pipeline's only validation before persistence is that
the parsed value is truthy and that its `total` is neither `undefined` nor
`null`; under those conditions alone — the competency structure is never
inspected — the submission succeeds and appends exactly one correction
row. -/
theorem c2_amended (uid : Nat) (text topic raw : List Char) (db : DB)
    (h1 : text.isEmpty = false) (h2 : topic.isEmpty = false)
    (h3 : raw.isEmpty = false)
    (h4 : isFalsy (parseJsonSafely (.vStr raw)) = false)
    (h5 : isNullish (getField (parseJsonSafely (.vStr raw)) kTotal) = false) :
    (∃ r, (submitEssay uid text topic raw db).2 = .ok r)
    ∧ (submitEssay uid text topic raw db).1.corrections.length
        = db.corrections.length + 1 := by
  cases hf : db.essays.find?
      (fun e => e.userId == uid && e.topic == topic && e.text == text) with
  | some essay => simp [submitEssay, h1, h2, h3, h4, h5, hf]
  | none => simp [submitEssay, h1, h2, h3, h4, h5, hf]

/-- C2, witness for the amended theorem at the competency-free payload. -/
theorem c2_amended_witness :
    (("X".data : List Char).isEmpty = false
      ∧ ("T".data : List Char).isEmpty = false
      ∧ ("\x7b\"total\":840\x7d".data : List Char).isEmpty = false
      ∧ isFalsy (parseJsonSafely (.vStr ("\x7b\"total\":840\x7d".data))) = false
      ∧ isNullish (getField (parseJsonSafely (.vStr ("\x7b\"total\":840\x7d".data)))
          kTotal) = false)
    ∧ ((∃ r, (submitEssay 1 ("X".data) ("T".data) ("\x7b\"total\":840\x7d".data)
          emptyDB).2 = .ok r)
       ∧ (submitEssay 1 ("X".data) ("T".data) ("\x7b\"total\":840\x7d".data)
           emptyDB).1.corrections.length = emptyDB.corrections.length + 1) :=
  ⟨⟨by decide, by decide, by decide, by decide, by decide⟩,
   c2_amended 1 ("X".data) ("T".data) ("\x7b\"total\":840\x7d".data) emptyDB
     (by decide) (by decide) (by decide) (by decide) (by decide)⟩

/-- C5, counterexample.  On unparseable prose the pipeline raises the
grade-format error and persists nothing at all: starting from the empty
store, not even the owning Essay row is created, refuting the claim that
the Essay is still persisted. -/
theorem c5_counterexample :
    submitEssay 1 ("X".data) ("T".data)
        ("Desculpe, o texto enviado fala de outro tema.".data) emptyDB
      = (emptyDB, .error "O modelo retornou uma correção inválida ou incompleta.")
    ∧ (submitEssay 1 ("X".data) ("T".data)
        ("Desculpe, o texto enviado fala de outro tema.".data)
        emptyDB).1.essays.length = 0 :=
  ⟨rfl, rfl⟩

/-- C5, amended: when the grading response cannot be sanitized and
validated into a grade object, `submitEssay` raises the grade-format error
and leaves the store exactly as it was — no Correction row and also no
Essay row is created, because validation runs before the find-or-create
step. -/
theorem c5_amended (uid : Nat) (text topic raw : List Char) (db : DB)
    (h1 : text.isEmpty = false) (h2 : topic.isEmpty = false)
    (h3 : raw.isEmpty = false)
    (h4 : (isFalsy (parseJsonSafely (.vStr raw))
        || isNullish (getField (parseJsonSafely (.vStr raw)) kTotal)) = true) :
    submitEssay uid text topic raw db
      = (db, .error "O modelo retornou uma correção inválida ou incompleta.") := by
  unfold submitEssay
  simp [h1, h2, h3, h4]

/-- C5, witness for the amended theorem on an arbitrary non-empty store. -/
theorem c5_amended_witness :
    (("X".data : List Char).isEmpty = false
      ∧ ("T".data : List Char).isEmpty = false
      ∧ ("sem nenhum objeto aqui".data : List Char).isEmpty = false
      ∧ (isFalsy (parseJsonSafely (.vStr ("sem nenhum objeto aqui".data)))
          || isNullish (getField (parseJsonSafely
              (.vStr ("sem nenhum objeto aqui".data))) kTotal)) = true)
    ∧ submitEssay 1 ("X".data) ("T".data) ("sem nenhum objeto aqui".data)
        (⟨[⟨0, 1, "T".data, "A".data, 0⟩], [], 1, 1⟩ : DB)
      = (⟨[⟨0, 1, "T".data, "A".data, 0⟩], [], 1, 1⟩,
         .error "O modelo retornou uma correção inválida ou incompleta.") :=
  ⟨⟨by decide, by decide, by decide, by decide⟩,
   c5_amended 1 ("X".data) ("T".data) ("sem nenhum objeto aqui".data)
     (⟨[⟨0, 1, "T".data, "A".data, 0⟩], [], 1, 1⟩ : DB)
     (by decide) (by decide) (by decide) (by decide)⟩

/-- C6: submitting the same `(user, topic, text)` triple twice (both
gradings returning a valid payload), starting from the empty store, yields
exactly one Essay row and two Correction rows attached to it, and the
history listing shows a single entry whose correction carries the second
(latest by `createdAt`) correction's total. -/
theorem c6_idempotent_resubmission (uid : Nat) (text topic raw1 raw2 : List Char)
    (h1 : text.isEmpty = false) (h2 : topic.isEmpty = false)
    (h3 : raw1.isEmpty = false) (h4 : raw2.isEmpty = false)
    (h5 : isFalsy (parseJsonSafely (.vStr raw1)) = false)
    (h6 : isNullish (getField (parseJsonSafely (.vStr raw1)) kTotal) = false)
    (h7 : isFalsy (parseJsonSafely (.vStr raw2)) = false)
    (h8 : isNullish (getField (parseJsonSafely (.vStr raw2)) kTotal) = false) :
    (submitEssay uid text topic raw2
        (submitEssay uid text topic raw1 emptyDB).1).1.essays.length = 1
    ∧ (submitEssay uid text topic raw2
        (submitEssay uid text topic raw1 emptyDB).1).1.corrections.length = 2
    ∧ (∀ c ∈ (submitEssay uid text topic raw2
          (submitEssay uid text topic raw1 emptyDB).1).1.corrections,
        ∃ e ∈ (submitEssay uid text topic raw2
            (submitEssay uid text topic raw1 emptyDB).1).1.essays,
          c.essayId = e.id)
    ∧ (getEssayHistory uid (submitEssay uid text topic raw2
        (submitEssay uid text topic raw1 emptyDB).1).1).length = 1
    ∧ ∀ entry ∈ getEssayHistory uid (submitEssay uid text topic raw2
        (submitEssay uid text topic raw1 emptyDB).1).1,
        entry.correction.total = getField (parseJsonSafely (.vStr raw2)) kTotal := by
  have hdb1 : (submitEssay uid text topic raw1 emptyDB).1
      = ⟨[⟨0, uid, topic, text, 0⟩],
         [⟨1, 0, getField (parseJsonSafely (.vStr raw1)) kTotal,
            parseJsonSafely (.vStr raw1), 1⟩], 2, 2⟩ := by
    simp [submitEssay, emptyDB, h1, h2, h3, h5, h6]
  rw [hdb1]
  have hfind : List.find? (fun e => e.userId == uid && e.topic == topic && e.text == text)
      [(⟨0, uid, topic, text, 0⟩ : Essay)] = some ⟨0, uid, topic, text, 0⟩ := by
    simp [List.find?]
  have hdb2 : (submitEssay uid text topic raw2
      (⟨[⟨0, uid, topic, text, 0⟩],
        [⟨1, 0, getField (parseJsonSafely (.vStr raw1)) kTotal,
           parseJsonSafely (.vStr raw1), 1⟩], 2, 2⟩ : DB)).1
      = ⟨[⟨0, uid, topic, text, 0⟩],
         [⟨1, 0, getField (parseJsonSafely (.vStr raw1)) kTotal,
            parseJsonSafely (.vStr raw1), 1⟩,
          ⟨2, 0, getField (parseJsonSafely (.vStr raw2)) kTotal,
            parseJsonSafely (.vStr raw2), 2⟩], 3, 3⟩ := by
    simp [submitEssay, h1, h2, h4, h7, h8, hfind]
  rw [hdb2]
  refine ⟨rfl, rfl, ?_, ?_, ?_⟩
  · intro c hc
    refine ⟨⟨0, uid, topic, text, 0⟩, by simp, ?_⟩
    simp at hc
    rcases hc with hc | hc <;> subst hc <;> rfl
  · simp [getEssayHistory, correctionsOf, sortByCreatedDesc, insertDesc, latestCorrection]
  · intro entry hentry
    simp [getEssayHistory, correctionsOf, sortByCreatedDesc, insertDesc,
      latestCorrection] at hentry
    subst hentry
    rfl

/-- C6, witness: the double submission at concrete payloads with totals
840 and then 920. -/
theorem c6_witness :
    (("X".data : List Char).isEmpty = false
      ∧ ("T".data : List Char).isEmpty = false
      ∧ ("\x7b\"total\":840\x7d".data : List Char).isEmpty = false
      ∧ ("\x7b\"total\":920\x7d".data : List Char).isEmpty = false
      ∧ isFalsy (parseJsonSafely (.vStr ("\x7b\"total\":840\x7d".data))) = false
      ∧ isNullish (getField (parseJsonSafely (.vStr ("\x7b\"total\":840\x7d".data)))
          kTotal) = false
      ∧ isFalsy (parseJsonSafely (.vStr ("\x7b\"total\":920\x7d".data))) = false
      ∧ isNullish (getField (parseJsonSafely (.vStr ("\x7b\"total\":920\x7d".data)))
          kTotal) = false)
    ∧ ((submitEssay 1 ("X".data) ("T".data) ("\x7b\"total\":920\x7d".data)
          (submitEssay 1 ("X".data) ("T".data) ("\x7b\"total\":840\x7d".data)
            emptyDB).1).1.essays.length = 1
       ∧ (submitEssay 1 ("X".data) ("T".data) ("\x7b\"total\":920\x7d".data)
           (submitEssay 1 ("X".data) ("T".data) ("\x7b\"total\":840\x7d".data)
             emptyDB).1).1.corrections.length = 2
       ∧ (∀ c ∈ (submitEssay 1 ("X".data) ("T".data) ("\x7b\"total\":920\x7d".data)
             (submitEssay 1 ("X".data) ("T".data) ("\x7b\"total\":840\x7d".data)
               emptyDB).1).1.corrections,
           ∃ e ∈ (submitEssay 1 ("X".data) ("T".data) ("\x7b\"total\":920\x7d".data)
               (submitEssay 1 ("X".data) ("T".data) ("\x7b\"total\":840\x7d".data)
                 emptyDB).1).1.essays,
             c.essayId = e.id)
       ∧ (getEssayHistory 1 (submitEssay 1 ("X".data) ("T".data)
           ("\x7b\"total\":920\x7d".data)
           (submitEssay 1 ("X".data) ("T".data) ("\x7b\"total\":840\x7d".data)
             emptyDB).1).1).length = 1
       ∧ ∀ entry ∈ getEssayHistory 1 (submitEssay 1 ("X".data) ("T".data)
           ("\x7b\"total\":920\x7d".data)
           (submitEssay 1 ("X".data) ("T".data) ("\x7b\"total\":840\x7d".data)
             emptyDB).1).1,
           entry.correction.total
             = getField (parseJsonSafely (.vStr ("\x7b\"total\":920\x7d".data))) kTotal) :=
  ⟨⟨by decide, by decide, by decide, by decide, by decide, by decide, by decide,
    by decide⟩,
   c6_idempotent_resubmission 1 ("X".data) ("T".data)
     ("\x7b\"total\":840\x7d".data) ("\x7b\"total\":920\x7d".data)
     (by decide) (by decide) (by decide) (by decide)
     (by decide) (by decide) (by decide) (by decide)⟩

/-- C7, counterexample.  The evaluator does not return a fixed catalog:
with no competency-5 mastery the list has three ids and `master_c5` is
absent (it is never shown locked), while a store containing a `c5 = 200`
grade makes the list four ids long. -/
theorem c7_counterexample :
    (getUserAchievements 1 emptyDB).map (fun a => a.id)
      = ["first_essay", "five_essays", "road_to_1000"]
    ∧ (getUserAchievements 1
        (⟨[⟨0, 1, "T".data, "A".data, 0⟩],
          [⟨1, 0, .vNum 1000,
             .vObj [(kCompetencias, .vObj [(kC5, .vObj [(kNota, .vNum 200)])]),
                    (kTotal, .vNum 1000)], 1⟩], 2, 2⟩ : DB)).map (fun a => a.id)
      = ["first_essay", "five_essays", "road_to_1000", "master_c5"]
    ∧ (["first_essay", "five_essays", "road_to_1000"] : List String)
        ≠ ["first_essay", "five_essays", "road_to_1000", "master_c5"] :=
  ⟨rfl, rfl, by decide⟩

/-- C7, amended: the evaluator always returns the three base achievements
`first_essay`, `five_essays` and `road_to_1000` with `unlocked` flags
matching their predicates over the parseable graded totals; the
`master_c5` entry is appended — always unlocked — exactly when some
essay's `c5.nota` equals 200, and is omitted entirely otherwise. -/
theorem c7_amended (uid : Nat) (db : DB) :
    (getUserAchievements uid db).map (fun a => (a.id, a.unlocked))
      = (if (c5ScoresOf uid db).any isNota200 then
          [("first_essay", decide (1 ≤ (essayGradesOf uid db).length)),
           ("five_essays", decide (5 ≤ (essayGradesOf uid db).length)),
           ("road_to_1000", (essayGradesOf uid db).any (fun g => decide (900 ≤ numOf g))),
           ("master_c5", true)]
        else
          [("first_essay", decide (1 ≤ (essayGradesOf uid db).length)),
           ("five_essays", decide (5 ≤ (essayGradesOf uid db).length)),
           ("road_to_1000", (essayGradesOf uid db).any
              (fun g => decide (900 ≤ numOf g)))]) := by
  by_cases hc5 : (c5ScoresOf uid db).any isNota200 = true
  · simp [getUserAchievements, hc5, List.find?]
  · have hc5' : (c5ScoresOf uid db).any isNota200 = false := by simpa using hc5
    simp [getUserAchievements, hc5']

/-- C8, counterexample.  A user with two graded essays, one carrying a
parseable total of 800 and one whose latest correction is the unparseable
string `"sem json"`, gets `averageGrade = round(800 / 2) = 400`: the
unparseable row is excluded from the numerator but still counted in the
denominator, so it does contribute to the mean. -/
theorem c8_counterexample :
    (getEssayAnalytics 1 (⟨[⟨0, 1, "T".data, "A".data, 0⟩, ⟨1, 1, "U".data, "B".data, 1⟩],
        [⟨2, 0, .vNum 800, .vObj [(kTotal, .vNum 800)], 2⟩,
         ⟨3, 1, .vNum 0, .vStr ("sem json".data), 3⟩], 4, 4⟩ : DB)).totalEssays = 2
    ∧ essayGradesOf 1 (⟨[⟨0, 1, "T".data, "A".data, 0⟩, ⟨1, 1, "U".data, "B".data, 1⟩],
        [⟨2, 0, .vNum 800, .vObj [(kTotal, .vNum 800)], 2⟩,
         ⟨3, 1, .vNum 0, .vStr ("sem json".data), 3⟩], 4, 4⟩ : DB) = [.vNum 800]
    ∧ (getEssayAnalytics 1 (⟨[⟨0, 1, "T".data, "A".data, 0⟩, ⟨1, 1, "U".data, "B".data, 1⟩],
        [⟨2, 0, .vNum 800, .vObj [(kTotal, .vNum 800)], 2⟩,
         ⟨3, 1, .vNum 0, .vStr ("sem json".data), 3⟩], 4, 4⟩ : DB)).averageGrade = 400
    ∧ (400 : Int) ≠ jsRoundDiv 800 1 :=
  ⟨rfl, rfl, rfl, by decide⟩

/-- Appending to the store an essay of the user that has no corrections
changes nothing in the analytics snapshot (helper for C8). -/
theorem analytics_ignores_ungraded (uid : Nat) (db : DB) (e : Essay)
    (he : e.userId = uid)
    (hcfresh : ∀ c' ∈ db.corrections, (c'.essayId == e.id) = false) :
    getEssayAnalytics uid { db with essays := db.essays ++ [e] }
      = getEssayAnalytics uid db := by
  have hco : correctionsOf { db with essays := db.essays ++ [e] } = correctionsOf db := rfl
  have hce : correctionsOf db e.id = [] := by
    simp only [correctionsOf, List.filter_eq_nil_iff]
    intro c' hc'
    simp [hcfresh c' hc']
  have hgraded : gradedEssaysOf uid { db with essays := db.essays ++ [e] }
      = gradedEssaysOf uid db := by
    simp only [gradedEssaysOf, hco, List.filter_append]
    rw [show (List.filter (fun e' => e'.userId == uid) [e]) = [e] by simp [he]]
    rw [show (List.filter (fun e' => !(correctionsOf db e'.id).isEmpty) [e]) = [] by
      simp [hce]]
    simp
  have hgrades : essayGradesOf uid { db with essays := db.essays ++ [e] }
      = essayGradesOf uid db := by
    simp only [essayGradesOf, hgraded, latestNotes, hco]
  have hcomp : competenceScoresOf uid { db with essays := db.essays ++ [e] }
      = competenceScoresOf uid db := by
    simp only [competenceScoresOf, hgraded, latestNotes, hco]
  simp only [getEssayAnalytics, hgraded, hgrades, hcomp]

/-- Appending an essay of the user together with one correction whose
payload parses to neither a usable `total` nor usable `competencias`:
the essay enters `totalEssays` (the mean's denominator) while every
numerator and the per-competency statistics are unchanged (helper for
C8). -/
theorem analytics_unparseable_latest (uid : Nat) (db : DB) (e : Essay) (c : Correction)
    (he : e.userId = uid)
    (hefresh : ∀ e' ∈ db.essays, (e'.id == e.id) = false)
    (hcfresh : ∀ c' ∈ db.corrections, (c'.essayId == e.id) = false)
    (hcid : c.essayId = e.id)
    (htot : isNullish (getField (parseJsonSafely c.notes) kTotal) = true)
    (hcmp : isNullish (getField (parseJsonSafely c.notes) kCompetencias) = true) :
    (getEssayAnalytics uid { db with essays := db.essays ++ [e], corrections := db.corrections ++ [c] }).totalEssays
      = (gradedEssaysOf uid db).length + 1
    ∧ essayGradesOf uid { db with essays := db.essays ++ [e], corrections := db.corrections ++ [c] }
      = essayGradesOf uid db
    ∧ (getEssayAnalytics uid { db with essays := db.essays ++ [e], corrections := db.corrections ++ [c] }).averageGrade
      = jsRoundDiv (sumNum (essayGradesOf uid db)) (((gradedEssaysOf uid db).length : Int) + 1)
    ∧ (getEssayAnalytics uid { db with essays := db.essays ++ [e], corrections := db.corrections ++ [c] }).competenceAverages
      = (getEssayAnalytics uid db).competenceAverages := by
  set db2 : DB := { db with essays := db.essays ++ [e], corrections := db.corrections ++ [c] } with hdb2
  have hcoOld : ∀ e' ∈ db.essays, correctionsOf db2 e'.id = correctionsOf db e'.id := by
    intro e' he'
    simp only [correctionsOf, hdb2, List.filter_append]
    have : (c.essayId == e'.id) = false := by
      have h1 := hefresh e' he'
      rw [hcid]
      simp only [beq_eq_false_iff_ne] at h1 ⊢
      exact fun hh => h1 hh.symm
    simp [this]
  have hcoE : correctionsOf db2 e.id = [c] := by
    simp only [correctionsOf, hdb2, List.filter_append]
    have h0 : List.filter (fun c' => c'.essayId == e.id) db.corrections = [] := by
      rw [List.filter_eq_nil_iff]
      intro c' hc'
      simp [hcfresh c' hc']
    simp [h0, hcid]
  have hgraded : gradedEssaysOf uid db2 = gradedEssaysOf uid db ++ [e] := by
    simp only [gradedEssaysOf, hdb2, List.filter_append]
    rw [show (List.filter (fun e' => e'.userId == uid) [e]) = [e] by simp [he]]
    rw [show (List.filter (fun e' => !(correctionsOf db2 e'.id).isEmpty) [e]) = [e] by
      simp [List.filter, hcoE]]
    have hfc : List.filter (fun e' => !(correctionsOf db2 e'.id).isEmpty)
        (List.filter (fun e' => e'.userId == uid) db.essays)
        = List.filter (fun e' => !(correctionsOf db e'.id).isEmpty)
          (List.filter (fun e' => e'.userId == uid) db.essays) := by
      apply List.filter_congr
      intro e' he'
      have he'' : e' ∈ db.essays := (List.mem_filter.mp he').1
      rw [hcoOld e' he'']
    rw [hfc]
  have hnotesOld : ∀ e' ∈ db.essays, latestNotes db2 e' = latestNotes db e' := by
    intro e' he'
    simp only [latestNotes, hcoOld e' he']
  have hnotesE : latestNotes db2 e = c.notes := by
    simp [latestNotes, hcoE, latestCorrection]
  have hmemOld : ∀ e' ∈ gradedEssaysOf uid db, e' ∈ db.essays := by
    intro e' he'
    exact (List.mem_filter.mp ((List.mem_filter.mp he').1)).1
  have hgrades : essayGradesOf uid db2 = essayGradesOf uid db := by
    simp only [essayGradesOf, hgraded, List.map_append, List.filter_append]
    rw [show List.map (fun e' => getField (parseJsonSafely (latestNotes db2 e')) kTotal) [e]
        = [getField (parseJsonSafely c.notes) kTotal] by simp [hnotesE]]
    rw [show List.filter (fun v => !(isNullish v))
          [getField (parseJsonSafely c.notes) kTotal] = [] by simp [htot]]
    have hm : List.map (fun e' => getField (parseJsonSafely (latestNotes db2 e')) kTotal)
        (gradedEssaysOf uid db)
        = List.map (fun e' => getField (parseJsonSafely (latestNotes db e')) kTotal)
          (gradedEssaysOf uid db) := by
      apply List.map_congr_left
      intro e' he'
      rw [hnotesOld e' (hmemOld e' he')]
    rw [hm]
    simp
  have hcompS : competenceScoresOf uid db2 = competenceScoresOf uid db := by
    simp only [competenceScoresOf, hgraded, List.map_append, List.filter_append]
    rw [show List.map (fun e' => getField (parseJsonSafely (latestNotes db2 e')) kCompetencias) [e]
        = [getField (parseJsonSafely c.notes) kCompetencias] by simp [hnotesE]]
    rw [show List.filter (fun v => !(isNullish v))
          [getField (parseJsonSafely c.notes) kCompetencias] = [] by simp [hcmp]]
    have hm : List.map (fun e' => getField (parseJsonSafely (latestNotes db2 e')) kCompetencias)
        (gradedEssaysOf uid db)
        = List.map (fun e' => getField (parseJsonSafely (latestNotes db e')) kCompetencias)
          (gradedEssaysOf uid db) := by
      apply List.map_congr_left
      intro e' he'
      rw [hnotesOld e' (hmemOld e' he')]
    rw [hm]
    simp
  refine ⟨?_, hgrades, ?_, ?_⟩
  · simp only [getEssayAnalytics, hgraded]
    simp
  · simp only [getEssayAnalytics, hgraded, hgrades, List.length_append,
      List.length_singleton]
    have hpos : 0 < (gradedEssaysOf uid db).length + 1 := Nat.succ_pos _
    simp only [hpos, if_pos]
    push_cast
    ring_nf
  · simp only [getEssayAnalytics, hcompS]

/-- C8, amended: essays with zero corrections are excluded from every
analytics statistic (numerators and denominators alike); an essay whose
latest correction is unparseable contributes nothing to the valid-total
list, the average's numerator, or the per-competency statistics, but it
does increment `totalEssays` — the denominator of the overall mean. -/
theorem c8_amended (uid : Nat) (db dbE dbEC : DB) (e : Essay) (c : Correction)
    (hdbE : dbE = { db with essays := db.essays ++ [e] })
    (hdbEC : dbEC = { db with essays := db.essays ++ [e], corrections := db.corrections ++ [c] })
    (he : e.userId = uid)
    (hefresh : ∀ e' ∈ db.essays, (e'.id == e.id) = false)
    (hcfresh : ∀ c' ∈ db.corrections, (c'.essayId == e.id) = false)
    (hcid : c.essayId = e.id)
    (htot : isNullish (getField (parseJsonSafely c.notes) kTotal) = true)
    (hcmp : isNullish (getField (parseJsonSafely c.notes) kCompetencias) = true) :
    getEssayAnalytics uid dbE = getEssayAnalytics uid db
    ∧ (getEssayAnalytics uid dbEC).totalEssays = (gradedEssaysOf uid db).length + 1
    ∧ essayGradesOf uid dbEC = essayGradesOf uid db
    ∧ (getEssayAnalytics uid dbEC).averageGrade
      = jsRoundDiv (sumNum (essayGradesOf uid db)) (((gradedEssaysOf uid db).length : Int) + 1)
    ∧ (getEssayAnalytics uid dbEC).competenceAverages
      = (getEssayAnalytics uid db).competenceAverages := by
  subst hdbE hdbEC
  obtain ⟨h1, h2, h3, h4⟩ :=
    analytics_unparseable_latest uid db e c he hefresh hcfresh hcid htot hcmp
  exact ⟨analytics_ignores_ungraded uid db e he hcfresh, h1, h2, h3, h4⟩

/-- C8, witness for the amended theorem: one user with one validly graded
essay, plus a fresh essay and an unparseable correction. -/
theorem c8_amended_witness :
    ((⟨[⟨0, 1, "T".data, "A".data, 0⟩, ⟨2, 1, "U".data, "B".data, 2⟩],
        [⟨1, 0, .vNum 800, .vObj [(kTotal, .vNum 800)], 1⟩], 2, 2⟩ : DB)
       = { (⟨[⟨0, 1, "T".data, "A".data, 0⟩],
             [⟨1, 0, .vNum 800, .vObj [(kTotal, .vNum 800)], 1⟩], 2, 2⟩ : DB) with
           essays := [⟨0, 1, "T".data, "A".data, 0⟩] ++ [⟨2, 1, "U".data, "B".data, 2⟩] }
      ∧ (⟨[⟨0, 1, "T".data, "A".data, 0⟩, ⟨2, 1, "U".data, "B".data, 2⟩],
          [⟨1, 0, .vNum 800, .vObj [(kTotal, .vNum 800)], 1⟩,
           ⟨3, 2, .vNum 0, .vStr ("x".data), 3⟩], 2, 2⟩ : DB)
       = { (⟨[⟨0, 1, "T".data, "A".data, 0⟩],
             [⟨1, 0, .vNum 800, .vObj [(kTotal, .vNum 800)], 1⟩], 2, 2⟩ : DB) with
           essays := [⟨0, 1, "T".data, "A".data, 0⟩] ++ [⟨2, 1, "U".data, "B".data, 2⟩],
           corrections := [⟨1, 0, .vNum 800, .vObj [(kTotal, .vNum 800)], 1⟩]
             ++ [⟨3, 2, .vNum 0, .vStr ("x".data), 3⟩] }
      ∧ (⟨2, 1, "U".data, "B".data, 2⟩ : Essay).userId = 1
      ∧ (∀ e' ∈ [(⟨0, 1, "T".data, "A".data, 0⟩ : Essay)], (e'.id == 2) = false)
      ∧ (∀ c' ∈ [(⟨1, 0, .vNum 800, .vObj [(kTotal, .vNum 800)], 1⟩ : Correction)],
          (c'.essayId == 2) = false)
      ∧ (⟨3, 2, .vNum 0, .vStr ("x".data), 3⟩ : Correction).essayId = 2
      ∧ isNullish (getField (parseJsonSafely (.vStr ("x".data))) kTotal) = true
      ∧ isNullish (getField (parseJsonSafely (.vStr ("x".data))) kCompetencias) = true)
    ∧ (getEssayAnalytics 1 (⟨[⟨0, 1, "T".data, "A".data, 0⟩, ⟨2, 1, "U".data, "B".data, 2⟩],
          [⟨1, 0, .vNum 800, .vObj [(kTotal, .vNum 800)], 1⟩], 2, 2⟩ : DB)
        = getEssayAnalytics 1 (⟨[⟨0, 1, "T".data, "A".data, 0⟩],
            [⟨1, 0, .vNum 800, .vObj [(kTotal, .vNum 800)], 1⟩], 2, 2⟩ : DB)
       ∧ (getEssayAnalytics 1 (⟨[⟨0, 1, "T".data, "A".data, 0⟩, ⟨2, 1, "U".data, "B".data, 2⟩],
            [⟨1, 0, .vNum 800, .vObj [(kTotal, .vNum 800)], 1⟩,
             ⟨3, 2, .vNum 0, .vStr ("x".data), 3⟩], 2, 2⟩ : DB)).totalEssays
          = (gradedEssaysOf 1 (⟨[⟨0, 1, "T".data, "A".data, 0⟩],
              [⟨1, 0, .vNum 800, .vObj [(kTotal, .vNum 800)], 1⟩], 2, 2⟩ : DB)).length + 1
       ∧ essayGradesOf 1 (⟨[⟨0, 1, "T".data, "A".data, 0⟩, ⟨2, 1, "U".data, "B".data, 2⟩],
            [⟨1, 0, .vNum 800, .vObj [(kTotal, .vNum 800)], 1⟩,
             ⟨3, 2, .vNum 0, .vStr ("x".data), 3⟩], 2, 2⟩ : DB)
          = essayGradesOf 1 (⟨[⟨0, 1, "T".data, "A".data, 0⟩],
              [⟨1, 0, .vNum 800, .vObj [(kTotal, .vNum 800)], 1⟩], 2, 2⟩ : DB)
       ∧ (getEssayAnalytics 1 (⟨[⟨0, 1, "T".data, "A".data, 0⟩, ⟨2, 1, "U".data, "B".data, 2⟩],
            [⟨1, 0, .vNum 800, .vObj [(kTotal, .vNum 800)], 1⟩,
             ⟨3, 2, .vNum 0, .vStr ("x".data), 3⟩], 2, 2⟩ : DB)).averageGrade
          = jsRoundDiv (sumNum (essayGradesOf 1 (⟨[⟨0, 1, "T".data, "A".data, 0⟩],
              [⟨1, 0, .vNum 800, .vObj [(kTotal, .vNum 800)], 1⟩], 2, 2⟩ : DB)))
            (((gradedEssaysOf 1 (⟨[⟨0, 1, "T".data, "A".data, 0⟩],
              [⟨1, 0, .vNum 800, .vObj [(kTotal, .vNum 800)], 1⟩], 2, 2⟩ : DB)).length : Int) + 1)
       ∧ (getEssayAnalytics 1 (⟨[⟨0, 1, "T".data, "A".data, 0⟩, ⟨2, 1, "U".data, "B".data, 2⟩],
            [⟨1, 0, .vNum 800, .vObj [(kTotal, .vNum 800)], 1⟩,
             ⟨3, 2, .vNum 0, .vStr ("x".data), 3⟩], 2, 2⟩ : DB)).competenceAverages
          = (getEssayAnalytics 1 (⟨[⟨0, 1, "T".data, "A".data, 0⟩],
              [⟨1, 0, .vNum 800, .vObj [(kTotal, .vNum 800)], 1⟩], 2, 2⟩ : DB)).competenceAverages) :=
  ⟨⟨rfl, rfl, rfl, by decide, by decide, rfl, by decide, by decide⟩,
   c8_amended 1
     (⟨[⟨0, 1, "T".data, "A".data, 0⟩],
       [⟨1, 0, .vNum 800, .vObj [(kTotal, .vNum 800)], 1⟩], 2, 2⟩ : DB)
     (⟨[⟨0, 1, "T".data, "A".data, 0⟩, ⟨2, 1, "U".data, "B".data, 2⟩],
       [⟨1, 0, .vNum 800, .vObj [(kTotal, .vNum 800)], 1⟩], 2, 2⟩ : DB)
     (⟨[⟨0, 1, "T".data, "A".data, 0⟩, ⟨2, 1, "U".data, "B".data, 2⟩],
       [⟨1, 0, .vNum 800, .vObj [(kTotal, .vNum 800)], 1⟩,
        ⟨3, 2, .vNum 0, .vStr ("x".data), 3⟩], 2, 2⟩ : DB)
     (⟨2, 1, "U".data, "B".data, 2⟩ : Essay)
     (⟨3, 2, .vNum 0, .vStr ("x".data), 3⟩ : Correction)
     rfl rfl rfl (by decide) (by decide) rfl (by decide) (by decide)⟩

/-- C9: for a user with zero graded essays the analytics computation
returns the all-zero, all-empty snapshot (and, being a total function in
the model, never throws); both guarded divisions take their `else 0`
branches. -/
theorem c9_zero_snapshot (uid : Nat) (db : DB)
    (h : gradedEssaysOf uid db = []) :
    getEssayAnalytics uid db = ⟨0, 0, some 0, [], []⟩ := by
  have hg : essayGradesOf uid db = [] := by simp [essayGradesOf, h]
  have hcs : competenceScoresOf uid db = [] := by simp [competenceScoresOf, h]
  simp [getEssayAnalytics, h, hg, hcs]

/-- C9, witness at the empty store. -/
theorem c9_witness :
    gradedEssaysOf 1 emptyDB = []
    ∧ getEssayAnalytics 1 emptyDB = ⟨0, 0, some 0, [], []⟩ :=
  ⟨rfl, c9_zero_snapshot 1 emptyDB rfl⟩

end Enem
